import Mathlib

/-!
Verification development for the HomeOPR single-vehicle routing tool
(src/app2.py).  The repository's computational core is embedded shallowly:

* `compute_distance_matrix` mirrors the Python function of the same name
  (src/app2.py lines 17-26).  The external geodesic primitive
  (`geopy.distance.geodesic(...).meters`) is a black-box dependency, so the
  embedding is parametrised over a cost function `geo : Point → Point → ℚ`
  giving the metres between two points; Python's `int(...)` truncation toward
  zero is `pyInt`.
* The OR-Tools solver is an external dependency as well; it is modelled from
  the spec as the PATH_CHEAPEST_ARC constructive heuristic
  (`path_cheapest_arc_route`).
* The Streamlit route tab (upload, column check, dropna, solve, projection,
  Google-Maps URL) is embedded as the pure function `runPipeline`.
-/

/-- Geographic point: a (latitude, longitude) pair in degrees, as carried in
the Python tuples `(lat, lng)`.  Rationals stand in for the floats. -/
structure Point where
  lat : ℚ
  lon : ℚ
deriving DecidableEq, Repr

/-- Python's `int(x)` on a real number: truncation toward zero. -/
def pyInt (q : ℚ) : ℤ :=
  if 0 ≤ q then ⌊q⌋ else ⌈q⌉

/-- Fixed depot configuration `OFFICE_LOCATION = (41.6586, -91.5302)`
(src/app2.py line 12). -/
def OFFICE_LOCATION : Point := ⟨41.6586, -91.5302⟩

/-- Embedding of `compute_distance_matrix(locations)` (src/app2.py lines
17-26): for each pair of positions `i, j` of `locations` the entry is `0` on
the diagonal and `int(geodesic(from_node, to_node).meters)` off it, with the
geodesic primitive abstracted as `geo`.  The Python dict-of-dicts keyed by
`0..N-1` is represented as a list of rows. -/
def compute_distance_matrix (geo : Point → Point → ℚ) (locations : List Point) :
    List (List ℤ) :=
  (List.range locations.length).map (fun i =>
    (List.range locations.length).map (fun j =>
      if i = j then 0
      else pyInt (geo (locations.getD i ⟨0, 0⟩) (locations.getD j ⟨0, 0⟩))))

/-- Lookup `matrix[i][j]` in the list-of-rows representation (out-of-range
reads default to `0`; the Python dict would raise, but all accesses proved
below are in range). -/
def matrixEntry (m : List (List ℤ)) (i j : ℕ) : ℤ :=
  (m.getD i []).getD j 0

theorem pyInt_nonneg {q : ℚ} (h : 0 ≤ q) : 0 ≤ pyInt q := by
  unfold pyInt
  rw [if_pos h]
  exact Int.floor_nonneg.mpr h

theorem compute_distance_matrix_length (geo : Point → Point → ℚ)
    (locations : List Point) :
    (compute_distance_matrix geo locations).length = locations.length := by
  simp [compute_distance_matrix]

theorem compute_distance_matrix_row_length (geo : Point → Point → ℚ)
    (locations : List Point) :
    ∀ row ∈ compute_distance_matrix geo locations,
      row.length = locations.length := by
  intro row hrow
  simp only [compute_distance_matrix, List.mem_map, List.mem_range] at hrow
  obtain ⟨i, _, rfl⟩ := hrow
  simp

theorem getD_map_range {α : Type} (f : ℕ → α) (n i : ℕ) (h : i < n) (d : α) :
    ((List.range n).map f).getD i d = f i := by
  rw [List.getD_eq_getElem?_getD, List.getElem?_map, List.getElem?_range h]
  simp

theorem getD_map_range_oob {α : Type} (f : ℕ → α) (n i : ℕ) (h : n ≤ i) (d : α) :
    ((List.range n).map f).getD i d = d := by
  rw [List.getD_eq_getElem?_getD, List.getElem?_map,
    List.getElem?_eq_none (by simpa using h)]
  simp

theorem matrixEntry_compute (geo : Point → Point → ℚ) (locations : List Point)
    (i j : ℕ) (hi : i < locations.length) (hj : j < locations.length) :
    matrixEntry (compute_distance_matrix geo locations) i j =
      if i = j then 0
      else pyInt (geo (locations.getD i ⟨0, 0⟩) (locations.getD j ⟨0, 0⟩)) := by
  unfold matrixEntry compute_distance_matrix
  rw [getD_map_range _ _ _ hi, getD_map_range _ _ _ hj]

theorem matrixEntry_compute_oob (geo : Point → Point → ℚ)
    (locations : List Point) (i j : ℕ)
    (h : locations.length ≤ i ∨ locations.length ≤ j) :
    matrixEntry (compute_distance_matrix geo locations) i j = 0 := by
  rcases h with hi | hj
  · unfold matrixEntry compute_distance_matrix
    rw [getD_map_range_oob _ _ _ hi]
    simp
  · by_cases hi : i < locations.length
    · unfold matrixEntry compute_distance_matrix
      rw [getD_map_range _ _ _ hi, getD_map_range_oob _ _ _ hj]
    · unfold matrixEntry compute_distance_matrix
      rw [getD_map_range_oob _ _ _ (Nat.le_of_not_lt hi)]
      simp

/-- Helper for the modelled solver: the first element of `x :: l` attaining
the minimum of `f` (strict improvement, so earlier elements win ties). -/
def chooseMin (f : ℕ → ℤ) : ℕ → List ℕ → ℕ
  | x, [] => x
  | x, y :: ys => if f y < f x then chooseMin f y ys else chooseMin f x ys

theorem chooseMin_mem (f : ℕ → ℤ) : ∀ (x : ℕ) (l : List ℕ), chooseMin f x l ∈ x :: l
  | x, [] => by simp [chooseMin]
  | x, y :: ys => by
    rw [chooseMin]
    by_cases h : f y < f x
    · rw [if_pos h]
      have := chooseMin_mem f y ys
      simp only [List.mem_cons] at this ⊢
      tauto
    · rw [if_neg h]
      have := chooseMin_mem f x ys
      simp only [List.mem_cons] at this ⊢
      tauto

theorem erase_chooseMin_length_lt (f : ℕ → ℤ) (x : ℕ) (xs : List ℕ) :
    ((x :: xs).erase (chooseMin f x xs)).length < (x :: xs).length := by
  rw [List.length_erase_of_mem (chooseMin_mem f x xs)]
  simp

/-- Modelled from the spec: the greedy order in which the PATH_CHEAPEST_ARC
first-solution strategy visits the remaining nodes, repeatedly extending the
partial tour by the cheapest next arc from the current node (the OR-Tools
solver invoked at src/app2.py lines 349-368 is an external dependency; only
its spec-level contract is embedded). -/
def greedyOrder (cost : ℕ → ℕ → ℤ) : ℕ → List ℕ → List ℕ
  | _, [] => []
  | cur, x :: xs =>
    let c := chooseMin (cost cur) x xs
    c :: greedyOrder cost c ((x :: xs).erase c)
termination_by _ l => l.length
decreasing_by
  simp_wf
  exact erase_chooseMin_length_lt _ _ _

theorem greedyOrder_perm (cost : ℕ → ℕ → ℤ) :
    ∀ (cur : ℕ) (l : List ℕ), (greedyOrder cost cur l).Perm l
  | _, [] => by simp [greedyOrder]
  | cur, x :: xs => by
    rw [greedyOrder]
    have hc : chooseMin (cost cur) x xs ∈ x :: xs := chooseMin_mem _ _ _
    have ih :=
      greedyOrder_perm cost (chooseMin (cost cur) x xs)
        ((x :: xs).erase (chooseMin (cost cur) x xs))
    exact (ih.cons _).trans (List.perm_cons_erase hc).symm
termination_by _cur l => l.length
decreasing_by
  simp_wf
  exact erase_chooseMin_length_lt _ _ _

/-- Modelled from the spec: the closed tour returned for `n` locations with
depot index `0` — the solver's `get_route` walk (src/app2.py lines 29-36)
starts at node 0, follows the PATH_CHEAPEST_ARC order through nodes
`1..n-1`, and appends the end node 0. -/
def path_cheapest_arc_route (cost : ℕ → ℕ → ℤ) (n : ℕ) : List ℕ :=
  0 :: (greedyOrder cost 0 (List.range' 1 (n - 1)) ++ [0])

/-- Uploaded CSV row as the route tab sees it: the two coordinate cells
(`None` models a missing/NaN cell that `dropna` removes) plus the opaque rest
of the record (`extra`), carried through unchanged. -/
structure Row (α : Type) where
  lat : Option ℚ
  lon : Option ℚ
  extra : α
deriving DecidableEq, Repr

/-- Uploaded table: whether the `Latitude` / `Longitude` columns exist at
all, and the rows. -/
structure Table (α : Type) where
  hasLatitude : Bool
  hasLongitude : Bool
  rows : List (Row α)
deriving DecidableEq, Repr

/-- Embedding of `df.dropna(subset=["Latitude", "Longitude"])` (src/app2.py
line 343): keep exactly the rows whose two coordinate cells are present. -/
def validRows {α : Type} (rows : List (Row α)) : List (Row α) :=
  rows.filter (fun r => r.lat.isSome && r.lon.isSome)

/-- Coordinate pair of a retained row, as `zip(df["Latitude"],
df["Longitude"])` reads it (src/app2.py line 346); the default `0` is never
used on rows that survived `dropna`. -/
def rowPoint {α : Type} (r : Row α) : Point :=
  ⟨r.lat.getD 0, r.lon.getD 0⟩

/-- Python/pandas positional indexing `df.iloc[k]` for an integer `k`:
`0 ≤ k < len` reads position `k`, `-len ≤ k < 0` reads position `len + k`
(negative indices count from the end), anything else raises (modelled as
`none`). -/
def pyIloc {α : Type} (l : List α) (k : ℤ) : Option α :=
  if 0 ≤ k then l[k.toNat]?
  else if -(l.length : ℤ) ≤ k then l[((l.length : ℤ) + k).toNat]?
  else none

/-- Embedding of the row selection `df.iloc[[i - 1 for i in stop_sequence]]`
(src/app2.py line 376): each tour index `i` fetches the record at position
`i - 1`; any failing lookup aborts (pandas would raise). -/
def select_rows {α : Type} (rows : List (Row α)) : List ℕ → Option (List (Row α))
  | [] => some []
  | i :: rest => do
    let r ← pyIloc rows ((i : ℤ) - 1)
    let rs ← select_rows rows rest
    pure (r :: rs)

/-- Embedding of the result projection (src/app2.py lines 375-377):
`stop_sequence = route[1:-1]`, `df_ordered = df.iloc[[i - 1 for i in
stop_sequence]]`, then `df_ordered.insert(0, "StopOrder", range(1, len + 1))`
— the projected output pairs each selected record with its 1-based
`StopOrder`. -/
def project {α : Type} (rows : List (Row α)) (route : List ℕ) :
    Option (List (ℕ × Row α)) :=
  let stop_sequence := (route.drop 1).dropLast
  (select_rows rows stop_sequence).map
    (fun rs => (List.range' 1 rs.length).zip rs)

/-- Cost callback the solver is given (src/app2.py lines 352-355): a lookup
in `distance_matrix`. -/
def matrixCost (m : List (List ℤ)) (i j : ℕ) : ℤ :=
  matrixEntry m i j

/-- Waypoint cap `MAX_WAYPOINTS = 8` of the Google-Maps link (src/app2.py
line 398). -/
def MAX_WAYPOINTS : ℕ := 8

/-- Data computed by a successful solve of the route tab: the matrix, the
tour, the projected `(StopOrder, record)` rows, the navigation-URL pieces
(origin, destination, embedded waypoints from `df_limited =
df_ordered.head(MAX_WAYPOINTS)`, src/app2.py lines 398-412), and whether the
St.info waypoint-overflow notice is shown (line 416). -/
structure SolveResult (α : Type) where
  matrix : List (List ℤ)
  route : List ℕ
  ordered : List (ℕ × Row α)
  urlOrigin : Point
  urlDest : Point
  urlWaypoints : List Point
  notice : Bool
deriving DecidableEq, Repr

/-- Outcome of one route-tab invocation: either the missing-column error
(src/app2.py lines 338-340) or a solved result. -/
inductive RouteOutcome (α : Type) where
  | missingColumns (missing : List String)
  | solved (res : SolveResult α)
deriving DecidableEq, Repr

/-- Embedding of `missing_latlng = [c for c in ["Latitude", "Longitude"] if
c not in df.columns]` (src/app2.py line 338). -/
def missing_latlng {α : Type} (t : Table α) : List String :=
  (if t.hasLatitude then [] else ["Latitude"]) ++
    (if t.hasLongitude then [] else ["Longitude"])

/-- Location list `[OFFICE_LOCATION] + list(zip(df["Latitude"],
df["Longitude"]))` built from the retained rows (src/app2.py line 346). -/
def pipelineLocations {α : Type} (t : Table α) : List Point :=
  OFFICE_LOCATION :: (validRows t.rows).map rowPoint

/-- Distance matrix of one invocation (src/app2.py line 347). -/
def pipelineMatrix {α : Type} (geo : Point → Point → ℚ) (t : Table α) :
    List (List ℤ) :=
  compute_distance_matrix geo (pipelineLocations t)

/-- Tour of one invocation: the spec-modelled solver run on the matrix
callback over all locations (src/app2.py lines 349-371). -/
def pipelineRoute {α : Type} (geo : Point → Point → ℚ) (t : Table α) :
    List ℕ :=
  path_cheapest_arc_route (matrixCost (pipelineMatrix geo t))
    (pipelineLocations t).length

/-- Embedding of the route tab's pipeline (src/app2.py lines 332-420):
column check, `dropna`, location list, distance matrix, solve (spec-modelled
PATH_CHEAPEST_ARC), projection, and the navigation URL.  The outer `Option`
is `none` only if a positional row lookup fails (pandas exception); the
theorems below show that never happens here. -/
def runPipeline {α : Type} (geo : Point → Point → ℚ) (t : Table α) :
    Option (RouteOutcome α) :=
  if missing_latlng t = [] then
    match project (validRows t.rows) (pipelineRoute geo t) with
    | none => none
    | some ordered =>
      some (RouteOutcome.solved
        { matrix := pipelineMatrix geo t
          route := pipelineRoute geo t
          ordered := ordered
          urlOrigin := OFFICE_LOCATION
          urlDest := OFFICE_LOCATION
          urlWaypoints := (ordered.take MAX_WAYPOINTS).map (fun p => rowPoint p.2)
          notice := decide (MAX_WAYPOINTS < ordered.length) })
  else
    some (RouteOutcome.missingColumns (missing_latlng t))

theorem path_cheapest_arc_route_interior (cost : ℕ → ℕ → ℤ) (n : ℕ) :
    ((path_cheapest_arc_route cost n).drop 1).dropLast =
      greedyOrder cost 0 (List.range' 1 (n - 1)) := by
  unfold path_cheapest_arc_route
  rw [List.drop_succ_cons, List.drop_zero, List.dropLast_concat]

theorem greedyOrder_range'_mem (cost : ℕ → ℕ → ℤ) (N : ℕ) :
    ∀ i ∈ greedyOrder cost 0 (List.range' 1 N), 1 ≤ i ∧ i ≤ N := by
  intro i hi
  have hmem := (greedyOrder_perm cost 0 (List.range' 1 N)).mem_iff.mp hi
  have := List.mem_range'_1.mp hmem
  omega

theorem greedyOrder_range'_length (cost : ℕ → ℕ → ℤ) (N : ℕ) :
    (greedyOrder cost 0 (List.range' 1 N)).length = N := by
  rw [(greedyOrder_perm cost 0 _).length_eq, List.length_range']

theorem pyIloc_coe_sub_one {α : Type} (l : List α) (i : ℕ) (hi : 1 ≤ i) :
    pyIloc l ((i : ℤ) - 1) = l[i - 1]? := by
  unfold pyIloc
  rw [if_pos (by omega)]
  congr 1
  omega

theorem pyIloc_neg_one {α : Type} (l : List α) (h : l ≠ []) :
    pyIloc l (-1) = l.getLast? := by
  have hlen : 0 < l.length := List.length_pos.mpr h
  unfold pyIloc
  rw [if_neg (by omega), if_pos (by omega), List.getLast?_eq_getElem?]
  congr 1
  omega

theorem select_rows_spec {α : Type} (rows : List (Row α)) :
    ∀ seq : List ℕ, (∀ i ∈ seq, 1 ≤ i ∧ i ≤ rows.length) →
      ∃ rs, select_rows rows seq = some rs ∧ rs.length = seq.length ∧
        ∀ (k i : ℕ), seq[k]? = some i → rs[k]? = rows[i - 1]?
  | [], _ => ⟨[], rfl, rfl, by intro k i hki; simp at hki⟩
  | i :: rest, h => by
    obtain ⟨hi1, hi2⟩ := h i (List.mem_cons_self i rest)
    obtain ⟨rs, hrs, hlen, helem⟩ :=
      select_rows_spec rows rest (fun j hj => h j (List.mem_cons_of_mem _ hj))
    have hlt : i - 1 < rows.length := by omega
    have hp : pyIloc rows ((i : ℤ) - 1) = some (rows.get ⟨i - 1, hlt⟩) := by
      rw [pyIloc_coe_sub_one rows i hi1, List.getElem?_eq_getElem hlt]
      simp
    refine ⟨rows.get ⟨i - 1, hlt⟩ :: rs, ?_, by simp [hlen], ?_⟩
    · simp only [select_rows, hp, hrs, Option.bind_eq_bind, Option.some_bind]
      rfl
    · intro k j hkj
      match k with
      | 0 =>
        simp only [List.getElem?_cons_zero, Option.some.injEq] at hkj
        subst hkj
        rw [List.getElem?_cons_zero, List.getElem?_eq_getElem hlt]
        simp
      | k + 1 =>
        rw [List.getElem?_cons_succ] at hkj ⊢
        exact helem k j hkj

theorem getElem?_zip_eq {α β : Type} (as : List α) (bs : List β) (k : ℕ) (a : α)
    (b : β) (ha : as[k]? = some a) (hb : bs[k]? = some b) :
    (as.zip bs)[k]? = some (a, b) := by
  obtain ⟨hka, ha'⟩ := List.getElem?_eq_some.mp ha
  obtain ⟨hkb, hb'⟩ := List.getElem?_eq_some.mp hb
  have hk : k < (as.zip bs).length := by
    rw [List.length_zip]
    exact lt_min hka hkb
  rw [List.getElem?_eq_getElem hk, List.getElem_zip, ha', hb']

/-- Core fact about the Result Projector: whenever every interior tour index
`i` satisfies `1 ≤ i ≤ |rows|`, the projection succeeds, has one output row
per interior index, carries the `StopOrder` column `1, 2, ...` in order, and
its `k`-th row pairs `StopOrder = k + 1` with the untouched record at upload
position `i - 1` for the `k`-th interior index `i`. -/
theorem project_spec {α : Type} (rows : List (Row α)) (route : List ℕ)
    (h : ∀ i ∈ (route.drop 1).dropLast, 1 ≤ i ∧ i ≤ rows.length) :
    ∃ l, project rows route = some l ∧
      l.length = ((route.drop 1).dropLast).length ∧
      l.map Prod.fst = List.range' 1 l.length ∧
      ∀ (k i : ℕ), ((route.drop 1).dropLast)[k]? = some i →
        ∃ r, rows[i - 1]? = some r ∧ l[k]? = some (k + 1, r) := by
  obtain ⟨rs, hrs, hlen, helem⟩ := select_rows_spec rows ((route.drop 1).dropLast) h
  refine ⟨(List.range' 1 rs.length).zip rs, ?_, ?_, ?_, ?_⟩
  · show (select_rows rows ((route.drop 1).dropLast)).map
      (fun rs => (List.range' 1 rs.length).zip rs) = _
    rw [hrs]
    rfl
  · rw [List.length_zip, List.length_range', hlen, min_self]
  · rw [List.map_fst_zip _ _ (by rw [List.length_range']),
      List.length_zip, List.length_range', min_self]
  · intro k i hki
    have hik : k < ((route.drop 1).dropLast).length := by
      by_contra hc
      rw [List.getElem?_eq_none (Nat.le_of_not_lt hc)] at hki
      exact Option.noConfusion hki
    have hmem : i ∈ (route.drop 1).dropLast := List.getElem?_mem hki
    obtain ⟨hi1, hi2⟩ := h i hmem
    have hlt : i - 1 < rows.length := by omega
    refine ⟨rows.get ⟨i - 1, hlt⟩, by rw [List.getElem?_eq_getElem hlt]; simp, ?_⟩
    have hrange : (List.range' 1 rs.length)[k]? = some (k + 1) := by
      rw [List.getElem?_range' _ _ (by omega : k < rs.length)]
      congr 1
      omega
    have hrsk : rs[k]? = some (rows.get ⟨i - 1, hlt⟩) := by
      rw [helem k i hki, List.getElem?_eq_getElem hlt]
      simp
    exact getElem?_zip_eq _ _ _ _ _ hrange hrsk

theorem pipelineRoute_interior {α : Type} (geo : Point → Point → ℚ)
    (t : Table α) :
    ((pipelineRoute geo t).drop 1).dropLast =
      greedyOrder (matrixCost (pipelineMatrix geo t)) 0
        (List.range' 1 (validRows t.rows).length) := by
  unfold pipelineRoute
  rw [path_cheapest_arc_route_interior]
  congr 1
  simp [pipelineLocations]

/-- Master lemma for a successful invocation: with both coordinate columns
present the pipeline returns a solved result, whose projected rows number
exactly the retained rows, whose `StopOrder` column is `1..N` in order,
whose navigation URL uses the depot as origin and destination and at most
the first `MAX_WAYPOINTS` projected stops as waypoints, and whose `k`-th
projected row carries the untouched record of the `k`-th visited stop. -/
theorem runPipeline_solved_spec {α : Type} (geo : Point → Point → ℚ)
    (t : Table α) (hla : t.hasLatitude = true) (hlo : t.hasLongitude = true) :
    ∃ res : SolveResult α, runPipeline geo t = some (RouteOutcome.solved res) ∧
      res.ordered.length = (validRows t.rows).length ∧
      res.ordered.map Prod.fst = List.range' 1 (validRows t.rows).length ∧
      res.urlOrigin = OFFICE_LOCATION ∧
      res.urlDest = OFFICE_LOCATION ∧
      res.urlWaypoints = (res.ordered.take MAX_WAYPOINTS).map (fun p => rowPoint p.2) ∧
      res.notice = decide (MAX_WAYPOINTS < (validRows t.rows).length) ∧
      res.matrix = pipelineMatrix geo t ∧
      res.route = pipelineRoute geo t ∧
      (∀ (k i : ℕ), ((res.route.drop 1).dropLast)[k]? = some i →
        ∃ r, (validRows t.rows)[i - 1]? = some r ∧ res.ordered[k]? = some (k + 1, r)) := by
  have hmiss : missing_latlng t = [] := by
    unfold missing_latlng
    rw [hla, hlo]
    rfl
  have hbounds : ∀ i ∈ ((pipelineRoute geo t).drop 1).dropLast,
      1 ≤ i ∧ i ≤ (validRows t.rows).length := by
    rw [pipelineRoute_interior]
    exact greedyOrder_range'_mem _ _
  obtain ⟨l, hproj, hlen, hfst, helem⟩ :=
    project_spec (validRows t.rows) (pipelineRoute geo t) hbounds
  have hintlen : (((pipelineRoute geo t).drop 1).dropLast).length =
      (validRows t.rows).length := by
    rw [pipelineRoute_interior, greedyOrder_range'_length]
  have hlen' : l.length = (validRows t.rows).length := by rw [hlen, hintlen]
  refine ⟨{ matrix := pipelineMatrix geo t
            route := pipelineRoute geo t
            ordered := l
            urlOrigin := OFFICE_LOCATION
            urlDest := OFFICE_LOCATION
            urlWaypoints := (l.take MAX_WAYPOINTS).map (fun p => rowPoint p.2)
            notice := decide (MAX_WAYPOINTS < l.length) },
    ?_, hlen', by rw [hfst, hlen'], rfl, rfl, rfl, by rw [hlen'], rfl, rfl, helem⟩
  unfold runPipeline
  rw [if_pos hmiss, hproj]

/-- Simple symmetric non-negative stand-in for the geodesic primitive, used
only to instantiate the abstract `geo` parameter in concrete checks. -/
def sqDist (p q : Point) : ℚ :=
  (p.lat - q.lat) * (p.lat - q.lat) + (p.lon - q.lon) * (p.lon - q.lon)

theorem sqDist_nonneg (p q : Point) : 0 ≤ sqDist p q :=
  add_nonneg (mul_self_nonneg _) (mul_self_nonneg _)

theorem sqDist_comm (p q : Point) : sqDist p q = sqDist q p := by
  unfold sqDist
  ring

/-- Concrete points and location list used by the witnesses. -/
def demoLocs : List Point := [⟨0, 0⟩, ⟨0, 1⟩, ⟨0, 2⟩]

/-- C1: for every cost matrix over a location list of `N + 1` entries with
the depot at index 0, the tour returned by the (spec-modelled) solver and
`get_route` starts and ends at index 0, visits every other location-list
index exactly once, and has length `|Location List| + 1 = N + 2`. -/
theorem C1_tour_is_depot_bounded_permutation (cost : ℕ → ℕ → ℤ) (N : ℕ) :
    (path_cheapest_arc_route cost (N + 1)).head? = some 0 ∧
    (path_cheapest_arc_route cost (N + 1)).getLast? = some 0 ∧
    (path_cheapest_arc_route cost (N + 1)).length = (N + 1) + 1 ∧
    (∀ k, 1 ≤ k → k ≤ N → (path_cheapest_arc_route cost (N + 1)).count k = 1) ∧
    (∀ k ∈ path_cheapest_arc_route cost (N + 1), k ≤ N) := by
  have hshape : path_cheapest_arc_route cost (N + 1) =
      (0 :: greedyOrder cost 0 (List.range' 1 N)) ++ [0] := by
    unfold path_cheapest_arc_route
    rw [List.cons_append]
    rfl
  have hperm := greedyOrder_perm cost 0 (List.range' 1 N)
  refine ⟨by rw [hshape]; rfl, by rw [hshape, List.getLast?_concat], ?_, ?_, ?_⟩
  · rw [hshape]
    simp [greedyOrder_range'_length]
  · intro k hk1 hkN
    have hcnt : List.count k (greedyOrder cost 0 (List.range' 1 N)) = 1 := by
      rw [hperm.count_eq]
      exact List.count_eq_one_of_mem (List.nodup_range' _ _)
        (List.mem_range'_1.mpr ⟨hk1, by omega⟩)
    have hk0 : ¬ ((0 : ℕ) == k) = true := by
      simp
      omega
    rw [hshape, List.count_append, List.count_cons, List.count_singleton, hcnt]
    simp only [if_neg hk0]
  · intro k hk
    rw [hshape] at hk
    rcases List.mem_append.mp hk with hk | hk
    · rcases List.mem_cons.mp hk with hk | hk
      · omega
      · have := List.mem_range'_1.mp (hperm.mem_iff.mp hk)
        omega
    · have : k = 0 := by simpa using hk
      omega

/-- C2: for every location list the computed distance matrix is `N × N`,
its diagonal entries are `0`, and (for a non-negative distance primitive,
as metres are) its off-diagonal entries are all `≥ 0`. -/
theorem C2_matrix_shape (geo : Point → Point → ℚ) (locations : List Point)
    (hgeo : ∀ p q, 0 ≤ geo p q) (_hN : 1 ≤ locations.length) :
    (compute_distance_matrix geo locations).length = locations.length ∧
    (∀ row ∈ compute_distance_matrix geo locations,
      row.length = locations.length) ∧
    (∀ i, i < locations.length →
      matrixEntry (compute_distance_matrix geo locations) i i = 0) ∧
    (∀ i j, i < locations.length → j < locations.length → i ≠ j →
      0 ≤ matrixEntry (compute_distance_matrix geo locations) i j) := by
  refine ⟨compute_distance_matrix_length geo locations,
    compute_distance_matrix_row_length geo locations, ?_, ?_⟩
  · intro i hi
    rw [matrixEntry_compute geo locations i i hi hi, if_pos rfl]
  · intro i j hi hj hij
    rw [matrixEntry_compute geo locations i j hi hj, if_neg hij]
    exact pyInt_nonneg (hgeo _ _)

/-- Witness for C2 at a concrete non-negative cost function and a concrete
three-point location list. -/
theorem C2_matrix_shape_witness :
    (compute_distance_matrix sqDist demoLocs).length = demoLocs.length ∧
    matrixEntry (compute_distance_matrix sqDist demoLocs) 1 1 = 0 ∧
    0 ≤ matrixEntry (compute_distance_matrix sqDist demoLocs) 0 1 :=
  ⟨(C2_matrix_shape sqDist demoLocs sqDist_nonneg (by decide)).1,
    (C2_matrix_shape sqDist demoLocs sqDist_nonneg (by decide)).2.2.1 1 (by decide),
    (C2_matrix_shape sqDist demoLocs sqDist_nonneg (by decide)).2.2.2 0 1
      (by decide) (by decide) (by decide)⟩

/-- C5: with a symmetric distance primitive (as the geodesic is), the
computed distance matrix is symmetric: `cost(i, j) = cost(j, i)` for every
pair of indices. -/
theorem C5_matrix_symmetric (geo : Point → Point → ℚ)
    (hsym : ∀ p q, geo p q = geo q p) (locations : List Point) (i j : ℕ) :
    matrixEntry (compute_distance_matrix geo locations) i j =
      matrixEntry (compute_distance_matrix geo locations) j i := by
  by_cases hi : i < locations.length
  · by_cases hj : j < locations.length
    · rw [matrixEntry_compute geo locations i j hi hj,
        matrixEntry_compute geo locations j i hj hi]
      by_cases hij : i = j
      · rw [if_pos hij, if_pos hij.symm]
      · rw [if_neg hij, if_neg (Ne.symm hij), hsym]
    · rw [matrixEntry_compute_oob geo locations i j
        (Or.inr (Nat.le_of_not_lt hj)),
        matrixEntry_compute_oob geo locations j i
          (Or.inl (Nat.le_of_not_lt hj))]
  · rw [matrixEntry_compute_oob geo locations i j
      (Or.inl (Nat.le_of_not_lt hi)),
      matrixEntry_compute_oob geo locations j i
        (Or.inr (Nat.le_of_not_lt hi))]

/-- Witness for C5 at a concrete symmetric cost function, a concrete
location list, and concrete indices. -/
theorem C5_matrix_symmetric_witness :
    matrixEntry (compute_distance_matrix sqDist demoLocs) 0 2 =
      matrixEntry (compute_distance_matrix sqDist demoLocs) 2 0 :=
  C5_matrix_symmetric sqDist sqDist_comm demoLocs 0 2

/-- C9: the embedded pipeline is a pure function, so running the matrix
build, the solve and the projection twice on the same input with the same
strategy yields the same matrix, the same tour and the same projected
output. -/
theorem C9_pipeline_deterministic {α : Type} (geo : Point → Point → ℚ)
    (t : Table α) :
    runPipeline geo t = runPipeline geo t ∧
    pipelineMatrix geo t = pipelineMatrix geo t ∧
    pipelineRoute geo t = pipelineRoute geo t :=
  ⟨rfl, rfl, rfl⟩

/-- Witness for C1 at a concrete cost function and three locations. -/
theorem C1_tour_is_depot_bounded_permutation_witness :
    (path_cheapest_arc_route (fun _ _ => 0) (2 + 1)).head? = some 0 ∧
    (path_cheapest_arc_route (fun _ _ => 0) (2 + 1)).getLast? = some 0 ∧
    (path_cheapest_arc_route (fun _ _ => 0) (2 + 1)).length = (2 + 1) + 1 ∧
    (path_cheapest_arc_route (fun _ _ => 0) (2 + 1)).count 1 = 1 :=
  ⟨(C1_tour_is_depot_bounded_permutation (fun _ _ => 0) 2).1,
   (C1_tour_is_depot_bounded_permutation (fun _ _ => 0) 2).2.1,
   (C1_tour_is_depot_bounded_permutation (fun _ _ => 0) 2).2.2.1,
   (C1_tour_is_depot_bounded_permutation (fun _ _ => 0) 2).2.2.2.1 1
     (by decide) (by decide)⟩

/-- Concrete row used by the witnesses: both coordinate cells present. -/
def demoRow (x y : ℚ) : Row Unit := ⟨some x, some y, ()⟩

/-- Concrete table used by the witnesses: three rows of which the middle one
is missing its Latitude cell, so two rows are retained. -/
def demoTbl : Table Unit :=
  ⟨true, true, [demoRow 0 1, ⟨none, some 5, ()⟩, demoRow 0 2]⟩

/-- Concrete table missing the Latitude column entirely. -/
def demoTblMissing : Table Unit := ⟨false, true, [demoRow 0 1]⟩

/-- Concrete table with 12 valid stops. -/
def demoTbl12 : Table Unit :=
  ⟨true, true, (List.range 12).map (fun k => demoRow (k : ℚ) 0)⟩

/-- C7: if the uploaded data lacks the `Latitude` or the `Longitude` column,
the pipeline reports the missing columns as an input error and produces no
solved result — no matrix build, no solve and no projection happen for that
invocation. -/
theorem C7_missing_columns_error {α : Type} (geo : Point → Point → ℚ)
    (t : Table α) (h : t.hasLatitude = false ∨ t.hasLongitude = false) :
    runPipeline geo t = some (RouteOutcome.missingColumns (missing_latlng t)) ∧
    missing_latlng t ≠ [] ∧
    ∀ res, runPipeline geo t ≠ some (RouteOutcome.solved res) := by
  have hne : missing_latlng t ≠ [] := by
    unfold missing_latlng
    intro hcon
    rw [List.append_eq_nil] at hcon
    rcases h with h | h <;> rw [h] at hcon <;> simp at hcon
  have hrun : runPipeline geo t =
      some (RouteOutcome.missingColumns (missing_latlng t)) := by
    unfold runPipeline
    rw [if_neg hne]
  refine ⟨hrun, hne, ?_⟩
  intro res
  rw [hrun]
  intro hcon
  simp at hcon

/-- Witness for C7 at a concrete table whose Latitude column is absent. -/
theorem C7_missing_columns_error_witness :
    runPipeline sqDist demoTblMissing =
      some (RouteOutcome.missingColumns (missing_latlng demoTblMissing)) ∧
    missing_latlng demoTblMissing ≠ [] :=
  ⟨(C7_missing_columns_error sqDist demoTblMissing (Or.inl rfl)).1,
   (C7_missing_columns_error sqDist demoTblMissing (Or.inl rfl)).2.1⟩

/-- C3: after a successful solve the projected output's StopOrder column is
exactly `1, ..., N` in contiguous 1-based order with no duplicates or
omissions, where `N` counts the rows retained after dropping rows with a
missing Latitude or Longitude cell. -/
theorem C3_stoporder_exactly_one_to_N {α : Type} (geo : Point → Point → ℚ)
    (t : Table α) (hla : t.hasLatitude = true) (hlo : t.hasLongitude = true) :
    ∃ res : SolveResult α, runPipeline geo t = some (RouteOutcome.solved res) ∧
      res.ordered.map Prod.fst = List.range' 1 (validRows t.rows).length ∧
      res.ordered.length = (validRows t.rows).length := by
  obtain ⟨res, h1, h2, h3, _⟩ := runPipeline_solved_spec geo t hla hlo
  exact ⟨res, h1, h3, h2⟩

/-- Witness for C3 at a concrete table with one invalid and two valid rows. -/
theorem C3_stoporder_exactly_one_to_N_witness :
    ∃ res : SolveResult Unit,
      runPipeline sqDist demoTbl = some (RouteOutcome.solved res) ∧
      res.ordered.map Prod.fst = List.range' 1 (validRows demoTbl.rows).length ∧
      res.ordered.length = (validRows demoTbl.rows).length :=
  C3_stoporder_exactly_one_to_N sqDist demoTbl rfl rfl

/-- C4: the Result Projector sends the `k`-th interior tour index `i`
(assumed in `1..N`) to the Stop record stored at upload position `i - 1`,
applying the `-1` offset exactly once; the record itself is carried into the
projected row unchanged — every field intact — paired with the added
`StopOrder` value `k + 1`. -/
theorem C4_projection_offset_and_frame {α : Type} (rows : List (Row α))
    (route : List ℕ)
    (h : ∀ i ∈ (route.drop 1).dropLast, 1 ≤ i ∧ i ≤ rows.length) :
    ∃ l, project rows route = some l ∧
      ∀ (k i : ℕ), ((route.drop 1).dropLast)[k]? = some i →
        ∃ r, rows[i - 1]? = some r ∧ l[k]? = some (k + 1, r) := by
  obtain ⟨l, h1, _, _, h4⟩ := project_spec rows route h
  exact ⟨l, h1, h4⟩

/-- Witness for C4 at two concrete records and the concrete tour
`[0, 2, 1, 0]`. -/
theorem C4_projection_offset_and_frame_witness :
    ∃ l, project [demoRow 0 1, demoRow 0 2] [0, 2, 1, 0] = some l ∧
      ∀ (k i : ℕ), ((([0, 2, 1, 0] : List ℕ).drop 1).dropLast)[k]? = some i →
        ∃ r, ([demoRow 0 1, demoRow 0 2] : List (Row Unit))[i - 1]? = some r ∧
          l[k]? = some (k + 1, r) :=
  C4_projection_offset_and_frame [demoRow 0 1, demoRow 0 2] [0, 2, 1, 0]
    (by decide)

/-- C8: when the solved route has more than `MAX_WAYPOINTS = 8` stops, the
navigation URL embeds at most 8 waypoints — a prefix of the solved order,
with the depot as both origin and destination — the informational notice is
shown, and the tabular export still contains every retained stop with
contiguous StopOrder `1..N`. -/
theorem C8_waypoint_cap {α : Type} (geo : Point → Point → ℚ) (t : Table α)
    (hla : t.hasLatitude = true) (hlo : t.hasLongitude = true)
    (hbig : MAX_WAYPOINTS < (validRows t.rows).length) :
    ∃ res : SolveResult α, runPipeline geo t = some (RouteOutcome.solved res) ∧
      res.urlWaypoints.length ≤ MAX_WAYPOINTS ∧
      res.urlWaypoints = (res.ordered.take MAX_WAYPOINTS).map (fun p => rowPoint p.2) ∧
      res.urlOrigin = OFFICE_LOCATION ∧
      res.urlDest = OFFICE_LOCATION ∧
      res.notice = true ∧
      res.ordered.length = (validRows t.rows).length ∧
      res.ordered.map Prod.fst = List.range' 1 (validRows t.rows).length := by
  obtain ⟨res, h1, hlen, hfst, hor, hde, hwp, hnot, _, _, _⟩ :=
    runPipeline_solved_spec geo t hla hlo
  refine ⟨res, h1, ?_, hwp, hor, hde, ?_, hlen, hfst⟩
  · rw [hwp, List.length_map, List.length_take]
    exact min_le_left _ _
  · rw [hnot]
    exact decide_eq_true hbig

/-- Witness for C8 at a concrete table with 12 valid stops. -/
theorem C8_waypoint_cap_witness :
    ∃ res : SolveResult Unit,
      runPipeline sqDist demoTbl12 = some (RouteOutcome.solved res) ∧
      res.urlWaypoints.length ≤ MAX_WAYPOINTS ∧
      res.urlWaypoints = (res.ordered.take MAX_WAYPOINTS).map (fun p => rowPoint p.2) ∧
      res.urlOrigin = OFFICE_LOCATION ∧
      res.urlDest = OFFICE_LOCATION ∧
      res.notice = true ∧
      res.ordered.length = (validRows demoTbl12.rows).length ∧
      res.ordered.map Prod.fst = List.range' 1 (validRows demoTbl12.rows).length :=
  C8_waypoint_cap sqDist demoTbl12 rfl rfl (by decide)

/-- C10: under the precondition that every interior tour index lies in
`1..N`, every positional lookup at `i - 1` performed by the projection is in
bounds and returns exactly the intended record (the out-of-range branch is
unreachable); absent that precondition, an interior index of `0` makes the
lookup position `-1`, which the positional-indexing semantics silently
resolves to the LAST record instead of failing. -/
theorem C10_iloc_in_bounds {α : Type} (rows : List (Row α)) (seq : List ℕ)
    (h : ∀ i ∈ seq, 1 ≤ i ∧ i ≤ rows.length) :
    (∀ i ∈ seq, 0 ≤ (i : ℤ) - 1 ∧
      ∃ r, pyIloc rows ((i : ℤ) - 1) = some r ∧ rows[i - 1]? = some r) ∧
    (∀ rows2 : List (Row α), rows2 ≠ [] →
      pyIloc rows2 (((0 : ℕ) : ℤ) - 1) = rows2.getLast?) := by
  constructor
  · intro i hi
    obtain ⟨h1, h2⟩ := h i hi
    have hlt : i - 1 < rows.length := by omega
    refine ⟨by omega, rows.get ⟨i - 1, hlt⟩, ?_, ?_⟩
    · rw [pyIloc_coe_sub_one rows i h1, List.getElem?_eq_getElem hlt]
      simp
    · rw [List.getElem?_eq_getElem hlt]
      simp
  · intro rows2 hne
    have hzero : (((0 : ℕ) : ℤ) - 1) = -1 := by decide
    rw [hzero, pyIloc_neg_one rows2 hne]

/-- Witness for C10 at two concrete records with the interior sequence
`[2, 1]`, plus the concrete negative-index resolution at index `0`. -/
theorem C10_iloc_in_bounds_witness :
    (0 ≤ ((2 : ℕ) : ℤ) - 1 ∧
      ∃ r, pyIloc ([demoRow 0 1, demoRow 0 2] : List (Row Unit))
          (((2 : ℕ) : ℤ) - 1) = some r ∧
        ([demoRow 0 1, demoRow 0 2] : List (Row Unit))[2 - 1]? = some r) ∧
    pyIloc ([demoRow 0 1, demoRow 0 2] : List (Row Unit)) (((0 : ℕ) : ℤ) - 1) =
      ([demoRow 0 1, demoRow 0 2] : List (Row Unit)).getLast? :=
  ⟨(C10_iloc_in_bounds [demoRow 0 1, demoRow 0 2] [2, 1] (by decide)).1 2
      (by decide),
   (C10_iloc_in_bounds [demoRow 0 1, demoRow 0 2] [2, 1] (by decide)).2 _
      (by decide)⟩

/-- External calls observable from the matrix-building code path: the only
matrix construction in the source is `compute_distance_matrix` (invoked at
src/app2.py line 347), whose loop body performs one geodesic-primitive call
per ordered pair of distinct indices; no call to any network routing
service appears anywhere in the source. -/
inductive ExtCall where
  | geodesicCall (p q : Point)
  | networkQuery (points : List Point)
deriving DecidableEq, Repr

def ExtCall.isNetworkQuery : ExtCall → Bool
  | geodesicCall _ _ => false
  | networkQuery _ => true

/-- Trace of the external calls `compute_distance_matrix` issues
(src/app2.py lines 17-26): `geodesic(from_node, to_node)` for every `i ≠ j`,
and nothing else. -/
def compute_distance_matrix_calls (locations : List Point) : List ExtCall :=
  ((List.range locations.length).map (fun i =>
    (List.range locations.length).filterMap (fun j =>
      if i = j then none
      else some (ExtCall.geodesicCall (locations.getD i ⟨0, 0⟩)
        (locations.getD j ⟨0, 0⟩))))).flatten

/-- Follows the spec's words (section 4.1, geodesic strategy): the matrix
the geodesic strategy alone would produce — `N × N`, zero diagonal,
round-down integer metres off the diagonal. -/
def geodesic_strategy_matrix (geo : Point → Point → ℚ)
    (locations : List Point) : List (List ℤ) :=
  (List.range locations.length).map (fun i =>
    (List.range locations.length).map (fun j =>
      if i = j then 0
      else ⌊geo (locations.getD i ⟨0, 0⟩) (locations.getD j ⟨0, 0⟩)⌋))

/-- C6 counterexample: at a concrete three-point input the matrix builder
issues no network query at all, refuting the claim that it supports a
network strategy issuing one batched distance query to an external routing
service. -/
theorem C6_no_network_query_counterexample :
    ¬ ∃ c ∈ compute_distance_matrix_calls demoLocs, c.isNetworkQuery = true := by
  decide

/-- C6 (amended): the matrix builder has no network strategy — it issues
only geodesic calls and never a network query, and (for a non-negative
distance primitive, as metres are) the matrix it produces is identical to
what the geodesic strategy alone would have produced for the same Points,
so trivially no mixing of strategies can occur within one matrix. -/
theorem C6_geodesic_only (geo : Point → Point → ℚ) (locations : List Point)
    (hgeo : ∀ p q, 0 ≤ geo p q) :
    (∀ c ∈ compute_distance_matrix_calls locations,
      c.isNetworkQuery = false) ∧
    compute_distance_matrix geo locations =
      geodesic_strategy_matrix geo locations := by
  constructor
  · intro c hc
    unfold compute_distance_matrix_calls at hc
    rw [List.mem_flatten] at hc
    obtain ⟨l, hl, hcl⟩ := hc
    rw [List.mem_map] at hl
    obtain ⟨i, _, rfl⟩ := hl
    rw [List.mem_filterMap] at hcl
    obtain ⟨j, _, hj⟩ := hcl
    by_cases hij : i = j
    · rw [if_pos hij] at hj
      exact Option.noConfusion hj
    · rw [if_neg hij] at hj
      obtain rfl := Option.some.injEq _ _ ▸ hj
      rfl
  · unfold compute_distance_matrix geodesic_strategy_matrix
    apply List.map_congr_left
    intro i _
    apply List.map_congr_left
    intro j _
    by_cases hij : i = j
    · rw [if_pos hij, if_pos hij]
    · rw [if_neg hij, if_neg hij]
      unfold pyInt
      rw [if_pos (hgeo _ _)]

/-- Witness for the amended C6 at the concrete non-negative cost function
and location list. -/
theorem C6_geodesic_only_witness :
    compute_distance_matrix sqDist demoLocs =
      geodesic_strategy_matrix sqDist demoLocs :=
  (C6_geodesic_only sqDist demoLocs sqDist_nonneg).2
